import Mathlib

/-!
# Verification of the image-to-diagram conversion system (BackbboxId)

Shallow embedding of the repository's conversion pipeline and its React
frontend state machine, with theorems settling the specification claims.

The frontend handlers are translated from `frontend/src/App.js`.  The
backend pipeline (FastAPI + OpenCV, `backend/image_processor.py`,
`backend/visio_generator.py`, `backend/main.py`) is not part of the
checked-in sources; those components are modelled from the specification
(sections 3, 4, 6, 7) and each such definition is marked
`Modelled from the spec:` in its doc comment.
-/

/- ## Frontend state model (from frontend/src/App.js) -/

/-- A selected file as the uploader hands it to `App`: name and byte size
(the only fields `App.js` reads). -/
structure UploadedFile where
  name : String
  size : Nat
deriving DecidableEq

/-- The JSON body of a successful convert response, per the
`POST /api/convert` response shape rendered by `ResultPanel.js`. -/
structure ConvertData where
  fileId : String
  visioFile : String
  shapesDetected : Nat
  connectorsDetected : Nat
  textElements : Nat
deriving DecidableEq

/-- The five `useState` fields of the `App` component, in declaration
order: `uploadedFile`, `fileId`, `processing`, `result`, `error`. -/
structure AppState where
  uploadedFile : Option UploadedFile
  fileId : Option String
  processing : Bool
  result : Option ConvertData
  error : Option String
deriving DecidableEq

/-- The component's state at mount: every `useState` initializer in
`App.js` is `null` except `processing`, which starts `false`. -/
def initialAppState : AppState :=
  { uploadedFile := none, fileId := none, processing := false
    result := none, error := none }

/-- Outcome of one `fetch` call as `App.js` distinguishes them:
a resolved response with `ok` and a parsed body, a resolved response
with `!response.ok` (the handler then throws its fixed message), or a
rejected promise carrying an error message. -/
inductive Fetch (α : Type) where
  | ok (data : α)
  | notOk
  | netError (msg : String)
deriving DecidableEq

/-- Whether the fetch outcome is the success case. -/
def Fetch.isOk {α : Type} : Fetch α → Bool
  | .ok _ => true
  | .notOk => false
  | .netError _ => false

/-- Model of `App.handleConvert`, given the outcome of the convert `fetch`.
Returns the state after the handler finishes together with a flag
recording whether a network request was issued.  The early
`if (!fileId) return;` guard issues nothing and changes nothing.
On the main path the handler sets `processing` true and `error` null,
then on success stores the parsed body in `result`; on a `!response.ok`
response it throws `Error('Conversion failed')` and on a rejected fetch
it propagates the error message, either way caught and stored as
`'Failed to convert: ' + err.message`; the `finally` block sets
`processing` false in all cases. -/
def handleConvert (s : AppState) (resp : Fetch ConvertData) : AppState × Bool :=
  match s.fileId with
  | none => (s, false)
  | some _ =>
    match resp with
    | .ok d => ({ s with processing := false, error := none, result := some d }, true)
    | .notOk =>
        ({ s with processing := false
                  error := some ("Failed to convert: " ++ "Conversion failed") }, true)
    | .netError m =>
        ({ s with processing := false
                  error := some ("Failed to convert: " ++ m) }, true)

/-- Model of `App.handleDownload`, given the outcome of the download `fetch`.
The early `if (!fileId) return;` guard issues nothing and changes
nothing.  A successful download only manipulates the DOM (object URL,
anchor click) and touches no state field; a failed one stores
`'Failed to download: ' + err.message` in `error`. -/
def handleDownload (s : AppState) (resp : Fetch Unit) : AppState × Bool :=
  match s.fileId with
  | none => (s, false)
  | some _ =>
    match resp with
    | .ok _ => (s, true)
    | .notOk =>
        ({ s with error := some ("Failed to download: " ++ "Download failed") }, true)
    | .netError m =>
        ({ s with error := some ("Failed to download: " ++ m) }, true)

/-- Model of `App.handleReset`: sets all five state fields back to their
initializers. -/
def handleReset (_s : AppState) : AppState := initialAppState

/-- C8: with `fileId` null, `handleConvert` and `handleDownload` are
no-ops: no network request is issued and none of the five state fields
changes. -/
theorem convert_download_noop_without_fileId
    (s : AppState) (rc : Fetch ConvertData) (rd : Fetch Unit)
    (h : s.fileId = none) :
    handleConvert s rc = (s, false) ∧ handleDownload s rd = (s, false) := by
  unfold handleConvert handleDownload
  rw [h]
  exact ⟨rfl, rfl⟩

/-- Witness for C8 at a concrete state whose `fileId` is null. -/
theorem convert_download_noop_without_fileId_witness :
    handleConvert ⟨some ⟨"d.png", 9⟩, none, true, none, some "e"⟩ Fetch.notOk
        = (⟨some ⟨"d.png", 9⟩, none, true, none, some "e"⟩, false) ∧
      handleDownload ⟨some ⟨"d.png", 9⟩, none, true, none, some "e"⟩ Fetch.notOk
        = (⟨some ⟨"d.png", 9⟩, none, true, none, some "e"⟩, false) :=
  convert_download_noop_without_fileId _ Fetch.notOk Fetch.notOk rfl

/-- C9: with a non-null `fileId`, `handleConvert` always ends with
`processing = false` (the `finally` block), and on any failed request
the `error` field holds a non-null message while `result` is left
untouched — in particular it remains null when it was null before. -/
theorem handleConvert_finally_and_failure
    (s : AppState) (resp : Fetch ConvertData) (h : s.fileId ≠ none) :
    (handleConvert s resp).1.processing = false ∧
    (resp.isOk = false →
      (handleConvert s resp).1.error ≠ none ∧
      (handleConvert s resp).1.result = s.result ∧
      (s.result = none → (handleConvert s resp).1.result = none)) := by
  match hf : s.fileId with
  | none => exact absurd hf h
  | some fid =>
    cases resp with
    | ok d => simp [handleConvert, hf, Fetch.isOk]
    | notOk => simp [handleConvert, hf, Fetch.isOk]
    | netError m => simp [handleConvert, hf, Fetch.isOk]

/-- Witness for C9 at a concrete state with a non-null `fileId` and a
failed (non-ok) convert request. -/
theorem handleConvert_finally_and_failure_witness :
    (handleConvert ⟨some ⟨"d.png", 9⟩, some "abc123", false, none, none⟩ Fetch.notOk).1.processing
        = false ∧
      (Fetch.isOk (α := ConvertData) Fetch.notOk = false →
        (handleConvert ⟨some ⟨"d.png", 9⟩, some "abc123", false, none, none⟩ Fetch.notOk).1.error
            ≠ none ∧
        (handleConvert ⟨some ⟨"d.png", 9⟩, some "abc123", false, none, none⟩ Fetch.notOk).1.result
            = (AppState.mk (some ⟨"d.png", 9⟩) (some "abc123") false none none).result ∧
        ((AppState.mk (some ⟨"d.png", 9⟩) (some "abc123") false none none).result = none →
          (handleConvert ⟨some ⟨"d.png", 9⟩, some "abc123", false, none, none⟩ Fetch.notOk).1.result
              = none)) :=
  handleConvert_finally_and_failure ⟨some ⟨"d.png", 9⟩, some "abc123", false, none, none⟩
    Fetch.notOk (by simp)

/-- C10: `handleReset` restores the exact mount-time state: all of
`uploadedFile`, `fileId`, `result`, `error` null and `processing`
false, whatever the state before the call. -/
theorem handleReset_restores_mount_state (s : AppState) :
    handleReset s = initialAppState ∧
    (handleReset s).uploadedFile = none ∧
    (handleReset s).fileId = none ∧
    (handleReset s).processing = false ∧
    (handleReset s).result = none ∧
    (handleReset s).error = none :=
  ⟨rfl, rfl, rfl, rfl, rfl, rfl⟩

/- ## Backend data model (spec section 3)

The backend sources (`backend/image_processor.py`, `backend/visio_generator.py`,
`backend/main.py`) are not among the checked-in files; everything below is
modelled from the specification. -/

/-- Modelled from the spec: a 2D point in pixel space (origin top-left). -/
structure Point where
  x : Nat
  y : Nat
deriving DecidableEq

/-- Modelled from the spec: an axis-aligned bounding box `(x, y, w, h)` in
pixel space. -/
structure BoundingBox where
  x : Nat
  y : Nat
  w : Nat
  h : Nat
deriving DecidableEq

/-- Modelled from the spec: the shape kinds of section 3. -/
inductive ShapeKind where
  | rectangle
  | ellipse
  | circle
  | triangle
  | diamond
  | polygon
  | unknown
deriving DecidableEq

/-- Modelled from the spec: a closed boundary curve traced from the edge
image, with its polygon approximation, enclosed area (px²) and perimeter
(px, rounded to an integer), as the contour-extraction stage reports them. -/
structure Contour where
  vertices : List Point
  area : Nat
  perimeter : Nat
deriving DecidableEq

/-- Modelled from the spec: a classified shape candidate before the
builder assigns its final id. -/
structure RawShape where
  kind : ShapeKind
  boundingBox : BoundingBox
  vertices : List Point
  area : Nat
deriving DecidableEq

/-- Modelled from the spec: a straight connector candidate after segment
merging — start and end points in pixel space. -/
structure Segment where
  p1 : Point
  p2 : Point
deriving DecidableEq

/-- Modelled from the spec: one OCR fragment `(text, boundingBox,
confidence)`; confidence is an integer percentage. -/
structure OcrFragment where
  content : String
  boundingBox : BoundingBox
  confidence : Nat
deriving DecidableEq

/-- Modelled from the spec: a Shape of the diagram graph (section 3). -/
structure Shape where
  id : Nat
  kind : ShapeKind
  boundingBox : BoundingBox
  vertices : List Point
  area : Nat
deriving DecidableEq

/-- Modelled from the spec: a Connector of the diagram graph; a null
`fromShapeId`/`toShapeId` marks a dangling end, `waypoints` is always
empty in this straight-line-only design. -/
structure Connector where
  id : Nat
  fromShapeId : Option Nat
  toShapeId : Option Nat
  startPoint : Point
  endPoint : Point
  waypoints : List Point
deriving DecidableEq

/-- Modelled from the spec: a TextElement of the diagram graph; a null
`ownerShapeId` marks a floating label. -/
structure TextElement where
  id : Nat
  content : String
  boundingBox : BoundingBox
  ownerShapeId : Option Nat
deriving DecidableEq

/-- Modelled from the spec: the aggregate root, its three id-keyed maps
represented as lists of entries (each entry carries its id). -/
structure DiagramGraph where
  shapes : List Shape
  connectors : List Connector
  texts : List TextElement
deriving DecidableEq

/-- Modelled from the spec: the tunable configuration of section 6; only
`minShapeArea` has a spec-fixed default (500 px²), the other defaults are
representative values. -/
structure Config where
  minShapeArea : Nat := 500
  lineDetectionMinLength : Nat := 30
  lineSnapTolerance : Nat := 5
  ocrMinConfidence : Nat := 50
  ocrTimeout : Nat := 10
deriving DecidableEq

/- ## Shape detection and classification (spec section 4.2) -/

/-- Modelled from the spec: noise filtering — discard any contour whose
enclosed area is below `minShapeArea`; a contour at exactly the threshold
is kept. -/
def filterNoise (minShapeArea : Nat) (contours : List Contour) : List Contour :=
  contours.filter (fun c => minShapeArea ≤ c.area)

/-- Modelled from the spec: bounding box of a vertex list (fold of
coordinate minima/maxima; the empty list gives the empty box at the
origin). -/
def bboxOf (vs : List Point) : BoundingBox :=
  match vs with
  | [] => ⟨0, 0, 0, 0⟩
  | v :: rest =>
    let lox := rest.foldl (fun a p => min a p.x) v.x
    let loy := rest.foldl (fun a p => min a p.y) v.y
    let hix := rest.foldl (fun a p => max a p.x) v.x
    let hiy := rest.foldl (fun a p => max a p.y) v.y
    ⟨lox, loy, hix - lox, hiy - loy⟩

/-- Modelled from the spec: the diamond test for a 4-gon — each vertex
lies within a small tolerance of the midpoint of one side of the
bounding box (the axis-aligned, 45°-rotated-symmetry reading of
section 4.2). -/
def isDiamondQuad (vs : List Point) : Bool :=
  let bb := bboxOf vs
  let mids : List Point :=
    [⟨bb.x + bb.w / 2, bb.y⟩, ⟨bb.x + bb.w, bb.y + bb.h / 2⟩,
     ⟨bb.x + bb.w / 2, bb.y + bb.h⟩, ⟨bb.x, bb.y + bb.h / 2⟩]
  vs.all (fun v => mids.any (fun m =>
    v.x ≤ m.x + 2 && m.x ≤ v.x + 2 && v.y ≤ m.y + 2 && m.y ≤ v.y + 2))

/-- Modelled from the spec: circularity `4·π·area / perimeter² ≥ 0.85`,
evaluated in integers with π ≈ 314/100: `4·314·area·100 ≥ 85·100·perimeter²`,
simplified to `125600·area ≥ 8500·perimeter²`. -/
def circularityHigh (c : Contour) : Bool :=
  8500 * (c.perimeter * c.perimeter) ≤ 125600 * c.area

/-- Modelled from the spec: bounding-box aspect ratio ≈ 1 within a 10%
tolerance. -/
def aspectNearOne (bb : BoundingBox) : Bool :=
  10 * bb.w ≤ 11 * bb.h && 10 * bb.h ≤ 11 * bb.w

/-- Modelled from the spec: the classification rule of section 4.2,
evaluated in order with first match winning: 3 vertices → triangle;
4 vertices → diamond or rectangle; high circularity → circle or ellipse
by aspect ratio; otherwise polygon, or unknown below 3 vertices. -/
def classifyContour (c : Contour) : ShapeKind :=
  if c.vertices.length = 3 then .triangle
  else if c.vertices.length = 4 then
    (if isDiamondQuad c.vertices then .diamond else .rectangle)
  else if circularityHigh c then
    (if aspectNearOne (bboxOf c.vertices) then .circle else .ellipse)
  else if 3 ≤ c.vertices.length then .polygon
  else .unknown

/-- Modelled from the spec: a filtered contour becomes a classified shape
candidate carrying its bounding box and normalized geometry. -/
def toRawShape (c : Contour) : RawShape :=
  { kind := classifyContour c, boundingBox := bboxOf c.vertices
    vertices := c.vertices, area := c.area }

/- ## DiagramGraphBuilder (spec section 4.5) -/

/-- Modelled from the spec: the stable detection order on bounding
boxes — top-to-bottom, then left-to-right, by box origin. -/
def bboxLe (a b : BoundingBox) : Prop :=
  a.y < b.y ∨ (a.y = b.y ∧ a.x ≤ b.x)

instance : DecidableRel bboxLe := fun a b => by
  unfold bboxLe; infer_instance

/-- Modelled from the spec: the detection order lifted to classified
shape candidates. -/
def rawShapeLe (a b : RawShape) : Prop :=
  bboxLe a.boundingBox b.boundingBox

instance : DecidableRel rawShapeLe := fun a b => by
  unfold rawShapeLe; infer_instance

instance : IsTotal RawShape rawShapeLe :=
  ⟨fun a b => by unfold rawShapeLe bboxLe; omega⟩

instance : IsTrans RawShape rawShapeLe :=
  ⟨fun a b c hab hbc => by
    unfold rawShapeLe bboxLe at hab hbc ⊢; omega⟩

/-- Modelled from the spec: shape candidates in stable detection order
(top-to-bottom / left-to-right by bounding-box origin). -/
def sortShapes (raw : List RawShape) : List RawShape :=
  List.insertionSort rawShapeLe raw

/-- Modelled from the spec: assign consecutive ids starting at `n` to the
ordered shape candidates. -/
def assignShapeIds : Nat → List RawShape → List Shape
  | _, [] => []
  | n, r :: rs =>
    { id := n, kind := r.kind, boundingBox := r.boundingBox
      vertices := r.vertices, area := r.area } :: assignShapeIds (n + 1) rs

/-- Modelled from the spec: whether a point lies on a shape's boundary
region dilated by the snap tolerance — within the bounding box expanded
by `tol` pixels on every side. -/
def nearShape (tol : Nat) (p : Point) (s : Shape) : Bool :=
  s.boundingBox.x ≤ p.x + tol && p.x ≤ s.boundingBox.x + s.boundingBox.w + tol &&
    s.boundingBox.y ≤ p.y + tol && p.y ≤ s.boundingBox.y + s.boundingBox.h + tol

/-- Modelled from the spec: endpoint resolution against the final shape
id assignment — the first shape whose dilated boundary contains the
endpoint, or null when none is within tolerance (the dangling case). -/
def resolveEndpoint (tol : Nat) (shapes : List Shape) (p : Point) : Option Nat :=
  (shapes.find? (nearShape tol p)).map Shape.id

/-- Modelled from the spec: build the connector entries — one per merged
segment candidate, never dropping any, with consecutive ids from `n` and
both ends resolved (possibly to null) against the final shapes. -/
def buildConnectorList (tol : Nat) (shapes : List Shape) : Nat → List Segment → List Connector
  | _, [] => []
  | n, seg :: rest =>
    { id := n, fromShapeId := resolveEndpoint tol shapes seg.p1
      toShapeId := resolveEndpoint tol shapes seg.p2
      startPoint := seg.p1, endPoint := seg.p2, waypoints := [] }
      :: buildConnectorList tol shapes (n + 1) rest

/-- Modelled from the spec: the overlap length of two 1D intervals
(natural subtraction truncates an empty overlap to 0). -/
def overlap1D (a aw b bw : Nat) : Nat :=
  min (a + aw) (b + bw) - max a b

/-- Modelled from the spec: the intersection area of two bounding
boxes. -/
def overlapArea (a b : BoundingBox) : Nat :=
  overlap1D a.x a.w b.x b.w * overlap1D a.y a.h b.y b.h

/-- Modelled from the spec: among candidate owners, the shape whose
bounding box has the greatest intersection with the fragment's box
(first such shape on equal overlap). -/
def pickMaxOverlap (bb : BoundingBox) : List Shape → Option Shape
  | [] => none
  | s :: rest =>
    match pickMaxOverlap bb rest with
    | none => some s
    | some b =>
        if overlapArea s.boundingBox bb < overlapArea b.boundingBox bb then some b
        else some s

/-- Modelled from the spec: owner association — the shape with the
greatest intersection-over-fragment-area, provided that ratio exceeds
the containment threshold 0.5 (`2·overlap > fragment area`); otherwise
the fragment is a floating label (null owner). -/
def chooseOwner (shapes : List Shape) (bb : BoundingBox) : Option Nat :=
  (pickMaxOverlap bb
      (shapes.filter (fun s => bb.w * bb.h < 2 * overlapArea s.boundingBox bb))).map
    Shape.id

/-- Modelled from the spec: build the text entries — one per retained
OCR fragment, with consecutive ids from `n` and the owner re-resolved
against the final shape assignment. -/
def buildTextList (shapes : List Shape) : Nat → List OcrFragment → List TextElement
  | _, [] => []
  | n, f :: rest =>
    { id := n, content := f.content, boundingBox := f.boundingBox
      ownerShapeId := chooseOwner shapes f.boundingBox }
      :: buildTextList shapes (n + 1) rest

/-- Modelled from the spec: DiagramGraphBuilder — shape ids are assigned
first, starting at 1, in stable detection order; then connector ids;
then text ids; connector endpoints and text owners are re-resolved
against the final shape id assignment.  The graph is returned by value
and nothing mutates it afterwards. -/
def buildGraph (cfg : Config) (raw : List RawShape) (segs : List Segment)
    (frags : List OcrFragment) : DiagramGraph :=
  let shapes := assignShapeIds 1 (sortShapes raw)
  let connectors := buildConnectorList cfg.lineSnapTolerance shapes (shapes.length + 1) segs
  let texts := buildTextList shapes (shapes.length + segs.length + 1) frags
  { shapes := shapes, connectors := connectors, texts := texts }

/- ## Decoding, pipeline and package generation (spec sections 4.1, 4.6, 6, 7) -/

/-- Modelled from the spec: the three accepted raster formats. -/
inductive ImageFormat where
  | png
  | jpeg
  | bmp
deriving DecidableEq

/-- Modelled from the spec: the error taxonomy of section 7. -/
inductive ConvError where
  | decodeError
  | ocrUnavailable
  | packagingError
deriving DecidableEq

/-- Modelled from the spec: the pipeline stages that run after a
successful decode, in order. -/
inductive Stage where
  | preprocess
  | shapeDetect
  | connectorDetect
  | textExtract
  | graphBuild
  | packageGen
deriving DecidableEq

/-- Modelled from the spec: format sniffing on the raw byte buffer by
magic numbers — the PNG signature, the JPEG SOI marker, or the BMP
ASCII header; anything else is unsupported. -/
def sniffFormat (buf : List Nat) : Option ImageFormat :=
  if buf.take 8 = [137, 80, 78, 71, 13, 10, 26, 10] then some .png
  else if buf.take 2 = [255, 216] then some .jpeg
  else if buf.take 2 = [66, 77] then some .bmp
  else none

/-- Modelled from the spec: length of the magic header for each format,
after which the model reads the spatial dimensions. -/
def headerLen : ImageFormat → Nat
  | .png => 8
  | .jpeg => 2
  | .bmp => 2

/-- Modelled from the spec: the decoded width and height, read (in this
model) as the two bytes following the magic header; a missing byte reads
as 0 and therefore yields a zero-area image. -/
def decodeDims (fmt : ImageFormat) (buf : List Nat) : Nat × Nat :=
  (buf.getD (headerLen fmt) 0, buf.getD (headerLen fmt + 1) 0)

/-- Modelled from the spec: a decoded raster image — format, spatial
dimensions, and the raw bytes (kept so downstream stages may depend on
the full input). -/
structure DecodedImage where
  format : ImageFormat
  width : Nat
  height : Nat
  data : List Nat
deriving DecidableEq

/-- Modelled from the spec: decoding fails with `DecodeError` when the
byte buffer is not a supported raster format or has zero area. -/
def decodeImage (buf : List Nat) : Except ConvError DecodedImage :=
  match sniffFormat buf with
  | none => .error .decodeError
  | some fmt =>
    let d := decodeDims fmt buf
    if d.1 = 0 ∨ d.2 = 0 then .error .decodeError
    else .ok ⟨fmt, d.1, d.2, buf⟩

/-- Modelled from the spec: the single-channel edge image the
preprocessor produces — same spatial dimensions as the input; the
grayscale/blur/threshold content is carried abstractly as the source
bytes. -/
structure EdgeImage where
  width : Nat
  height : Nat
  data : List Nat
deriving DecidableEq

/-- Modelled from the spec: the preprocessor — a pure transform to an
edge image of the same spatial dimensions. -/
def preprocessImage (img : DecodedImage) : EdgeImage :=
  ⟨img.width, img.height, img.data⟩

/-- Modelled from the spec: OCR filtering — fragments below the minimum
confidence, or with empty/whitespace-only content, are discarded. -/
def filterFragments (minConfidence : Nat) (frags : List OcrFragment) : List OcrFragment :=
  frags.filter (fun f => minConfidence ≤ f.confidence && ¬f.content.trim.isEmpty)

/-- Modelled from the spec: whether an optional shape reference is null
or names a shape present in the graph. -/
def refOk (g : DiagramGraph) : Option Nat → Bool
  | none => true
  | some i => g.shapes.any (fun s => s.id = i)

/-- Modelled from the spec: the defensive structural check of the
package generator — every connector endpoint reference and every text
owner reference must be null or resolve to an existing shape. -/
def graphValid (g : DiagramGraph) : Bool :=
  g.connectors.all (fun c => refOk g c.fromShapeId && refOk g c.toShapeId) &&
    g.texts.all (fun t => refOk g t.ownerShapeId)

/-- Modelled from the spec: the part names every generated package must
contain (section 6). -/
def requiredPartNames : List String :=
  ["[Content_Types].xml", "_rels/.rels", "visio/document.xml",
   "visio/pages/page1.xml", "visio/masters/masters.xml"]

/-- Modelled from the spec: the page part — one XML element per shape,
per connector, and per floating text, serialized as a flat string. -/
def pageXml (g : DiagramGraph) : String :=
  let shapeXml := g.shapes.foldl
    (fun acc s => acc ++ "<Shape ID=" ++ toString s.id ++ "/>") ""
  let connXml := g.connectors.foldl
    (fun acc c => acc ++ "<Shape ID=" ++ toString c.id ++ " Kind=Connector/>") ""
  let textXml := g.texts.foldl
    (fun acc t => acc ++ "<Shape ID=" ++ toString t.id ++ " Kind=Text/>") ""
  "<PageContents>" ++ shapeXml ++ connXml ++ textXml ++ "</PageContents>"

/-- Modelled from the spec: the package generator — serializes the graph
into the required zip parts, or fails with `PackagingError` on a
dangling reference (the defensive check of section 4.6). -/
def generatePackage (g : DiagramGraph) : Except ConvError (List (String × String)) :=
  if graphValid g then
    .ok [("[Content_Types].xml", "<Types/>"),
         ("_rels/.rels", "<Relationships/>"),
         ("visio/document.xml", "<VisioDocument/>"),
         ("visio/pages/page1.xml", pageXml g),
         ("visio/masters/masters.xml", "<Masters/>"),
         ("visio/pages/_rels/page1.xml.rels", "<Relationships/>")]
  else .error .packagingError

/-- Modelled from the spec: the `ConversionResult` of section 6 — the
three counts plus the serialized package parts. -/
structure ConversionResult where
  shapesDetected : Nat
  connectorsDetected : Nat
  textElements : Nat
  package : List (String × String)
deriving DecidableEq

/-- Modelled from the spec: the graph built from a decoded image by the
detection stages and the builder.  The algorithmically unspecified
primitives — contour tracing, the line transform with segment merging,
and the OCR engine — are taken as explicit function arguments. -/
def analysisGraph (cfg : Config)
    (findContours : EdgeImage → List Contour)
    (detectSegments : EdgeImage → List Segment)
    (ocr : DecodedImage → List OcrFragment)
    (img : DecodedImage) : DiagramGraph :=
  let edges := preprocessImage img
  let raw := (filterNoise cfg.minShapeArea (findContours edges)).map toRawShape
  let segs := detectSegments edges
  let frags := filterFragments cfg.ocrMinConfidence (ocr img)
  buildGraph cfg raw segs frags

/-- Modelled from the spec: analysis-only mode — decode, run the stages
through DiagramGraphBuilder, and return the graph without packaging. -/
def runAnalysis (cfg : Config)
    (findContours : EdgeImage → List Contour)
    (detectSegments : EdgeImage → List Segment)
    (ocr : DecodedImage → List OcrFragment)
    (buf : List Nat) : Except ConvError DiagramGraph :=
  match decodeImage buf with
  | .error e => .error e
  | .ok img => .ok (analysisGraph cfg findContours detectSegments ocr img)

/-- Modelled from the spec: the full conversion pipeline, returning the
result (or fatal error) together with the list of stages that ran.  A
decode failure aborts before any stage runs. -/
def runPipelineTrace (cfg : Config)
    (findContours : EdgeImage → List Contour)
    (detectSegments : EdgeImage → List Segment)
    (ocr : DecodedImage → List OcrFragment)
    (buf : List Nat) : Except ConvError ConversionResult × List Stage :=
  match decodeImage buf with
  | .error e => (.error e, [])
  | .ok img =>
    let g := analysisGraph cfg findContours detectSegments ocr img
    match generatePackage g with
    | .error e =>
        (.error e,
         [Stage.preprocess, Stage.shapeDetect, Stage.connectorDetect,
          Stage.textExtract, Stage.graphBuild])
    | .ok parts =>
        (.ok { shapesDetected := g.shapes.length
               connectorsDetected := g.connectors.length
               textElements := g.texts.length
               package := parts },
         [Stage.preprocess, Stage.shapeDetect, Stage.connectorDetect,
          Stage.textExtract, Stage.graphBuild, Stage.packageGen])

/- ## Helper lemmas about id assignment and reference resolution -/

/-- The run of `n` consecutive identifiers starting at `s`. -/
def idRun : Nat → Nat → List Nat
  | _, 0 => []
  | s, n + 1 => s :: idRun (s + 1) n

theorem idRun_length (n s : Nat) : (idRun s n).length = n := by
  induction n generalizing s with
  | zero => rfl
  | succ k ih => simp [idRun, ih]

theorem mem_idRun (n s i : Nat) : i ∈ idRun s n ↔ s ≤ i ∧ i < s + n := by
  induction n generalizing s with
  | zero => simp [idRun]
  | succ k ih => simp [idRun, ih (s + 1)]; omega

theorem idRun_nodup (n s : Nat) : (idRun s n).Nodup := by
  induction n generalizing s with
  | zero => simp [idRun]
  | succ k ih =>
    simp only [idRun, List.nodup_cons]
    exact ⟨by simp [mem_idRun], ih (s + 1)⟩

theorem idRun_append (m s n : Nat) :
    idRun s m ++ idRun (s + m) n = idRun s (m + n) := by
  induction m generalizing s with
  | zero => simp [idRun]
  | succ k ih =>
    have h2 : idRun s (k + 1 + n) = s :: idRun (s + 1) (k + n) := by
      rw [show k + 1 + n = (k + n) + 1 from by omega]
      rfl
    rw [show idRun s (k + 1) = s :: idRun (s + 1) k from rfl, h2, List.cons_append,
      show s + (k + 1) = (s + 1) + k from by omega, ih (s + 1)]

theorem assignShapeIds_map_id (l : List RawShape) (n : Nat) :
    (assignShapeIds n l).map Shape.id = idRun n l.length := by
  induction l generalizing n with
  | nil => rfl
  | cons r rs ih => simp [assignShapeIds, idRun, ih (n + 1)]

theorem assignShapeIds_length (l : List RawShape) (n : Nat) :
    (assignShapeIds n l).length = l.length := by
  induction l generalizing n with
  | nil => rfl
  | cons r rs ih => simp [assignShapeIds, ih (n + 1)]

theorem assignShapeIds_map_bbox (l : List RawShape) (n : Nat) :
    (assignShapeIds n l).map Shape.boundingBox = l.map RawShape.boundingBox := by
  induction l generalizing n with
  | nil => rfl
  | cons r rs ih => simp [assignShapeIds, ih (n + 1)]

theorem sortShapes_length (raw : List RawShape) :
    (sortShapes raw).length = raw.length :=
  (List.perm_insertionSort rawShapeLe raw).length_eq

theorem buildConnectorList_map_id (tol : Nat) (shapes : List Shape)
    (segs : List Segment) (n : Nat) :
    (buildConnectorList tol shapes n segs).map Connector.id = idRun n segs.length := by
  induction segs generalizing n with
  | nil => rfl
  | cons seg rest ih => simp [buildConnectorList, idRun, ih (n + 1)]

theorem buildConnectorList_length (tol : Nat) (shapes : List Shape)
    (segs : List Segment) (n : Nat) :
    (buildConnectorList tol shapes n segs).length = segs.length := by
  induction segs generalizing n with
  | nil => rfl
  | cons seg rest ih => simp [buildConnectorList, ih (n + 1)]

theorem buildTextList_map_id (shapes : List Shape)
    (frags : List OcrFragment) (n : Nat) :
    (buildTextList shapes n frags).map TextElement.id = idRun n frags.length := by
  induction frags generalizing n with
  | nil => rfl
  | cons f rest ih => simp [buildTextList, idRun, ih (n + 1)]

theorem mem_buildConnectorList (tol : Nat) (shapes : List Shape)
    (segs : List Segment) (n : Nat) (c : Connector)
    (hc : c ∈ buildConnectorList tol shapes n segs) :
    ∃ seg ∈ segs,
      c.fromShapeId = resolveEndpoint tol shapes seg.p1 ∧
      c.toShapeId = resolveEndpoint tol shapes seg.p2 ∧
      c.startPoint = seg.p1 ∧ c.endPoint = seg.p2 := by
  induction segs generalizing n with
  | nil => simp [buildConnectorList] at hc
  | cons seg rest ih =>
    simp only [buildConnectorList, List.mem_cons] at hc
    cases hc with
    | inl h => exact ⟨seg, List.mem_cons_self seg rest, by simp [h]⟩
    | inr h =>
      obtain ⟨seg', hmem, hprops⟩ := ih (n + 1) h
      exact ⟨seg', List.mem_cons_of_mem seg hmem, hprops⟩

theorem buildConnectorList_covers (tol : Nat) (shapes : List Shape)
    (segs : List Segment) (n : Nat) (seg : Segment) (hseg : seg ∈ segs) :
    ∃ c ∈ buildConnectorList tol shapes n segs,
      c.startPoint = seg.p1 ∧ c.endPoint = seg.p2 ∧
      c.fromShapeId = resolveEndpoint tol shapes seg.p1 ∧
      c.toShapeId = resolveEndpoint tol shapes seg.p2 := by
  induction segs generalizing n with
  | nil => cases hseg
  | cons s0 rest ih =>
    cases hseg with
    | head => exact ⟨_, List.mem_cons_self _ _, rfl, rfl, rfl, rfl⟩
    | tail _ h =>
      obtain ⟨c, hmem, hprops⟩ := ih (n + 1) h
      exact ⟨c, List.mem_cons_of_mem _ hmem, hprops⟩

theorem mem_buildTextList (shapes : List Shape)
    (frags : List OcrFragment) (n : Nat) (t : TextElement)
    (ht : t ∈ buildTextList shapes n frags) :
    ∃ f ∈ frags, t.ownerShapeId = chooseOwner shapes f.boundingBox := by
  induction frags generalizing n with
  | nil => simp [buildTextList] at ht
  | cons f rest ih =>
    simp only [buildTextList, List.mem_cons] at ht
    cases ht with
    | inl h => exact ⟨f, List.mem_cons_self f rest, by simp [h]⟩
    | inr h =>
      obtain ⟨f', hmem, hprop⟩ := ih (n + 1) h
      exact ⟨f', List.mem_cons_of_mem f hmem, hprop⟩

theorem resolveEndpoint_some_mem (tol : Nat) (shapes : List Shape) (p : Point)
    (i : Nat) (h : resolveEndpoint tol shapes p = some i) :
    ∃ s ∈ shapes, s.id = i := by
  unfold resolveEndpoint at h
  cases hf : shapes.find? (nearShape tol p) with
  | none => rw [hf] at h; cases h
  | some s =>
    rw [hf] at h
    simp only [Option.map_some'] at h
    exact ⟨s, List.mem_of_find?_eq_some hf, Option.some.inj h⟩

theorem resolveEndpoint_none_of_far (tol : Nat) (shapes : List Shape) (p : Point)
    (h : ∀ s ∈ shapes, nearShape tol p s = false) :
    resolveEndpoint tol shapes p = none := by
  unfold resolveEndpoint
  rw [List.find?_eq_none.mpr (fun s hs => by simp [h s hs])]
  rfl

theorem pickMaxOverlap_mem (bb : BoundingBox) (l : List Shape) (s : Shape)
    (h : pickMaxOverlap bb l = some s) : s ∈ l := by
  induction l with
  | nil => cases h
  | cons a rest ih =>
    unfold pickMaxOverlap at h
    cases h' : pickMaxOverlap bb rest with
    | none =>
      rw [h'] at h
      have ha : a = s := Option.some.inj h
      subst ha
      exact List.mem_cons_self a rest
    | some b =>
      rw [h'] at h
      have h2 : (if overlapArea a.boundingBox bb < overlapArea b.boundingBox bb
          then some b else some a) = some s := h
      by_cases hc : overlapArea a.boundingBox bb < overlapArea b.boundingBox bb
      · rw [if_pos hc] at h2
        have hb : b = s := Option.some.inj h2
        subst hb
        exact List.mem_cons_of_mem a (ih h')
      · rw [if_neg hc] at h2
        have ha : a = s := Option.some.inj h2
        subst ha
        exact List.mem_cons_self a rest

theorem chooseOwner_some_mem (shapes : List Shape) (bb : BoundingBox)
    (i : Nat) (h : chooseOwner shapes bb = some i) :
    ∃ s ∈ shapes, s.id = i := by
  unfold chooseOwner at h
  cases hp : pickMaxOverlap bb
      (shapes.filter (fun s => bb.w * bb.h < 2 * overlapArea s.boundingBox bb)) with
  | none => rw [hp] at h; cases h
  | some s =>
    rw [hp] at h
    simp only [Option.map_some'] at h
    exact ⟨s, List.mem_of_mem_filter (pickMaxOverlap_mem _ _ _ hp), Option.some.inj h⟩

theorem refOk_resolveEndpoint (g : DiagramGraph) (tol : Nat) (p : Point)
    (hs : ∀ i, (∃ s ∈ g.shapes, s.id = i) → refOk g (some i) = true) :
    refOk g (resolveEndpoint tol g.shapes p) = true := by
  cases hr : resolveEndpoint tol g.shapes p with
  | none => rfl
  | some i => exact hs i (resolveEndpoint_some_mem tol g.shapes p i hr)

theorem refOk_of_exists (g : DiagramGraph) (i : Nat)
    (h : ∃ s ∈ g.shapes, s.id = i) : refOk g (some i) = true := by
  obtain ⟨s, hmem, hid⟩ := h
  simp only [refOk, List.any_eq_true]
  exact ⟨s, hmem, by simp [hid]⟩

theorem graphValid_buildGraph (cfg : Config) (raw : List RawShape)
    (segs : List Segment) (frags : List OcrFragment) :
    graphValid (buildGraph cfg raw segs frags) = true := by
  unfold graphValid
  rw [Bool.and_eq_true, List.all_eq_true, List.all_eq_true]
  constructor
  · intro c hc
    obtain ⟨seg, _, hfrom, hto, _, _⟩ :=
      mem_buildConnectorList cfg.lineSnapTolerance _ segs _ c hc
    rw [Bool.and_eq_true, hfrom, hto]
    exact ⟨refOk_resolveEndpoint _ _ _ (fun i hi => refOk_of_exists _ i hi),
      refOk_resolveEndpoint _ _ _ (fun i hi => refOk_of_exists _ i hi)⟩
  · intro t ht
    obtain ⟨f, _, hown⟩ := mem_buildTextList _ frags _ t ht
    rw [hown]
    cases ho : chooseOwner (assignShapeIds 1 (sortShapes raw)) f.boundingBox with
    | none => rfl
    | some i => exact refOk_of_exists _ i (chooseOwner_some_mem _ _ i ho)

/- ## Claim theorems for the conversion pipeline -/

/-- C1: whenever the pipeline reports a result and analysis-only mode
reports a graph for the same input and configuration, the reported
`shapesDetected`, `connectorsDetected` and `textElements` equal the
cardinalities of the graph's shape, connector and text maps. -/
theorem conversion_counts_match_graph (cfg : Config)
    (fc : EdgeImage → List Contour) (ds : EdgeImage → List Segment)
    (ocr : DecodedImage → List OcrFragment) (buf : List Nat)
    (r : ConversionResult) (g : DiagramGraph)
    (hr : (runPipelineTrace cfg fc ds ocr buf).1 = .ok r)
    (hg : runAnalysis cfg fc ds ocr buf = .ok g) :
    r.shapesDetected = g.shapes.length ∧
    r.connectorsDetected = g.connectors.length ∧
    r.textElements = g.texts.length := by
  cases hd : decodeImage buf with
  | error e => simp [runAnalysis, hd] at hg
  | ok img =>
    simp only [runAnalysis, hd] at hg
    cases hp : generatePackage (analysisGraph cfg fc ds ocr img) with
    | error e => simp [runPipelineTrace, hd, hp] at hr
    | ok parts =>
      simp only [runPipelineTrace, hd, hp] at hr
      rw [← (Except.ok.inj hr), ← (Except.ok.inj hg)]
      exact ⟨rfl, rfl, rfl⟩

/-- Witness for C1 on a concrete one-pixel-free BMP-like buffer with
detectors that find nothing. -/
theorem conversion_counts_match_graph_witness :
    ConversionResult.shapesDetected
        ⟨0, 0, 0,
         [("[Content_Types].xml", "<Types/>"), ("_rels/.rels", "<Relationships/>"),
          ("visio/document.xml", "<VisioDocument/>"),
          ("visio/pages/page1.xml", pageXml ⟨[], [], []⟩),
          ("visio/masters/masters.xml", "<Masters/>"),
          ("visio/pages/_rels/page1.xml.rels", "<Relationships/>")]⟩
      = (DiagramGraph.shapes ⟨[], [], []⟩).length ∧
    ConversionResult.connectorsDetected
        ⟨0, 0, 0,
         [("[Content_Types].xml", "<Types/>"), ("_rels/.rels", "<Relationships/>"),
          ("visio/document.xml", "<VisioDocument/>"),
          ("visio/pages/page1.xml", pageXml ⟨[], [], []⟩),
          ("visio/masters/masters.xml", "<Masters/>"),
          ("visio/pages/_rels/page1.xml.rels", "<Relationships/>")]⟩
      = (DiagramGraph.connectors ⟨[], [], []⟩).length ∧
    ConversionResult.textElements
        ⟨0, 0, 0,
         [("[Content_Types].xml", "<Types/>"), ("_rels/.rels", "<Relationships/>"),
          ("visio/document.xml", "<VisioDocument/>"),
          ("visio/pages/page1.xml", pageXml ⟨[], [], []⟩),
          ("visio/masters/masters.xml", "<Masters/>"),
          ("visio/pages/_rels/page1.xml.rels", "<Relationships/>")]⟩
      = (DiagramGraph.texts ⟨[], [], []⟩).length :=
  conversion_counts_match_graph {} (fun _ => []) (fun _ => []) (fun _ => [])
    [66, 77, 4, 3] _ _ rfl rfl

/-- C2: the pipeline is a pure function of the input buffer, the
configuration and the stage primitives, so two runs on byte-identical
input agree exactly; and the builder's ordering rule holds — shape ids
are `1..n` assigned along the stable top-to-bottom/left-to-right order
of bounding-box origins, connector ids continue at `n+1`, then text
ids. -/
theorem pipeline_deterministic_and_ordered (cfg : Config)
    (fc : EdgeImage → List Contour) (ds : EdgeImage → List Segment)
    (ocr : DecodedImage → List OcrFragment) (buf : List Nat)
    (raw : List RawShape) (segs : List Segment) (frags : List OcrFragment) :
    runPipelineTrace cfg fc ds ocr buf = runPipelineTrace cfg fc ds ocr buf ∧
    (buildGraph cfg raw segs frags).shapes.map Shape.id = idRun 1 raw.length ∧
    (buildGraph cfg raw segs frags).connectors.map Connector.id
        = idRun (raw.length + 1) segs.length ∧
    (buildGraph cfg raw segs frags).texts.map TextElement.id
        = idRun (raw.length + segs.length + 1) frags.length ∧
    List.Pairwise bboxLe ((buildGraph cfg raw segs frags).shapes.map Shape.boundingBox) := by
  refine ⟨rfl, ?_, ?_, ?_, ?_⟩
  · show (assignShapeIds 1 (sortShapes raw)).map Shape.id = _
    rw [assignShapeIds_map_id, sortShapes_length]
  · show (buildConnectorList cfg.lineSnapTolerance (assignShapeIds 1 (sortShapes raw))
        ((assignShapeIds 1 (sortShapes raw)).length + 1) segs).map Connector.id = _
    rw [buildConnectorList_map_id, assignShapeIds_length, sortShapes_length]
  · show (buildTextList (assignShapeIds 1 (sortShapes raw))
        ((assignShapeIds 1 (sortShapes raw)).length + segs.length + 1) frags).map
          TextElement.id = _
    rw [buildTextList_map_id, assignShapeIds_length, sortShapes_length]
  · show List.Pairwise bboxLe ((assignShapeIds 1 (sortShapes raw)).map Shape.boundingBox)
    rw [assignShapeIds_map_bbox, List.pairwise_map]
    exact List.Pairwise.imp (fun h => h) (List.sorted_insertionSort rawShapeLe raw)

/-- C5: every built graph satisfies referential integrity — each
non-null connector endpoint reference and each non-null text owner
reference names a shape present in the graph — and its ids form the
single monotone run `1..n` over shapes, then connectors, then texts,
with no id ever reused.  (The graph is a value; nothing mutates it
after `buildGraph` returns.) -/
theorem buildGraph_integrity_and_monotone_ids (cfg : Config)
    (raw : List RawShape) (segs : List Segment) (frags : List OcrFragment) :
    (∀ c ∈ (buildGraph cfg raw segs frags).connectors, ∀ i : Nat,
        c.fromShapeId = some i →
          ∃ s ∈ (buildGraph cfg raw segs frags).shapes, s.id = i) ∧
    (∀ c ∈ (buildGraph cfg raw segs frags).connectors, ∀ i : Nat,
        c.toShapeId = some i →
          ∃ s ∈ (buildGraph cfg raw segs frags).shapes, s.id = i) ∧
    (∀ t ∈ (buildGraph cfg raw segs frags).texts, ∀ i : Nat,
        t.ownerShapeId = some i →
          ∃ s ∈ (buildGraph cfg raw segs frags).shapes, s.id = i) ∧
    (buildGraph cfg raw segs frags).shapes.map Shape.id ++
        ((buildGraph cfg raw segs frags).connectors.map Connector.id ++
          (buildGraph cfg raw segs frags).texts.map TextElement.id)
      = idRun 1 (raw.length + segs.length + frags.length) ∧
    ((buildGraph cfg raw segs frags).shapes.map Shape.id ++
        ((buildGraph cfg raw segs frags).connectors.map Connector.id ++
          (buildGraph cfg raw segs frags).texts.map TextElement.id)).Nodup := by
  have hcat : (buildGraph cfg raw segs frags).shapes.map Shape.id ++
      ((buildGraph cfg raw segs frags).connectors.map Connector.id ++
        (buildGraph cfg raw segs frags).texts.map TextElement.id)
      = idRun 1 (raw.length + segs.length + frags.length) := by
    show (assignShapeIds 1 (sortShapes raw)).map Shape.id ++
        ((buildConnectorList cfg.lineSnapTolerance (assignShapeIds 1 (sortShapes raw))
            ((assignShapeIds 1 (sortShapes raw)).length + 1) segs).map Connector.id ++
          (buildTextList (assignShapeIds 1 (sortShapes raw))
            ((assignShapeIds 1 (sortShapes raw)).length + segs.length + 1) frags).map
              TextElement.id) = _
    rw [assignShapeIds_map_id, buildConnectorList_map_id, buildTextList_map_id,
      assignShapeIds_length, sortShapes_length,
      show raw.length + segs.length + 1 = (raw.length + 1) + segs.length from by omega,
      idRun_append segs.length (raw.length + 1) frags.length,
      show raw.length + 1 = 1 + raw.length from by omega,
      idRun_append raw.length 1 (segs.length + frags.length),
      show raw.length + (segs.length + frags.length)
          = raw.length + segs.length + frags.length from by omega]
  refine ⟨?_, ?_, ?_, hcat, ?_⟩
  · intro c hc i hi
    obtain ⟨seg, _, hfrom, _, _, _⟩ :=
      mem_buildConnectorList cfg.lineSnapTolerance _ segs _ c hc
    exact resolveEndpoint_some_mem _ _ _ i (hfrom.symm.trans hi)
  · intro c hc i hi
    obtain ⟨seg, _, _, hto, _, _⟩ :=
      mem_buildConnectorList cfg.lineSnapTolerance _ segs _ c hc
    exact resolveEndpoint_some_mem _ _ _ i (hto.symm.trans hi)
  · intro t ht i hi
    obtain ⟨f, _, hown⟩ := mem_buildTextList _ frags _ t ht
    exact chooseOwner_some_mem _ _ i (hown.symm.trans hi)
  · rw [hcat]
    exact idRun_nodup _ _

/-- Witness for C5: a graph built from one rectangle and one segment
whose start touches it; the connector's `fromShapeId = some 1` resolves
to a shape present in the graph. -/
theorem buildGraph_integrity_and_monotone_ids_witness :
    ∃ s ∈ (buildGraph {} [⟨ShapeKind.rectangle, ⟨0, 0, 10, 10⟩,
        [⟨0, 0⟩, ⟨10, 0⟩, ⟨10, 10⟩, ⟨0, 10⟩], 100⟩]
      [⟨⟨1, 1⟩, ⟨20, 1⟩⟩] []).shapes, s.id = 1 :=
  (buildGraph_integrity_and_monotone_ids {}
      [⟨ShapeKind.rectangle, ⟨0, 0, 10, 10⟩, [⟨0, 0⟩, ⟨10, 0⟩, ⟨10, 10⟩, ⟨0, 10⟩], 100⟩]
      [⟨⟨1, 1⟩, ⟨20, 1⟩⟩] []).1
    ⟨2, some 1, none, ⟨1, 1⟩, ⟨20, 1⟩, []⟩ (by decide) 1 rfl

/-- C3: the noise filter keeps a contour exactly when its enclosed area
is at least `minShapeArea`; a contour exactly at the threshold is
retained and one a pixel below is discarded. -/
theorem noise_filter_keeps_iff_at_least_min (minShapeArea : Nat)
    (cs : List Contour) (c : Contour) :
    (c ∈ filterNoise minShapeArea cs ↔ c ∈ cs ∧ minShapeArea ≤ c.area) ∧
    (c ∈ cs → c.area = minShapeArea → c ∈ filterNoise minShapeArea cs) ∧
    (c.area + 1 = minShapeArea → c ∉ filterNoise minShapeArea cs) := by
  have hiff : c ∈ filterNoise minShapeArea cs ↔ c ∈ cs ∧ minShapeArea ≤ c.area := by
    simp [filterNoise, List.mem_filter]
  refine ⟨hiff, ?_, ?_⟩
  · intro hmem harea
    exact hiff.mpr ⟨hmem, by omega⟩
  · intro hbelow hmem
    have := (hiff.mp hmem).2
    omega

/-- Witness for C3 at the default threshold 500: the 500 px² contour is
kept, as the boundary conjunct demands at a concrete input. -/
theorem noise_filter_keeps_iff_at_least_min_witness :
    (⟨[], 500, 90⟩ : Contour) ∈ filterNoise 500 [⟨[], 500, 90⟩, ⟨[], 499, 90⟩] :=
  (noise_filter_keeps_iff_at_least_min 500 [⟨[], 500, 90⟩, ⟨[], 499, 90⟩]
      ⟨[], 500, 90⟩).2.1 (by decide) rfl

/-- C4: decoding accepts exactly the PNG/JPEG/BMP magic headers with a
nonzero area — any buffer that sniffs as none of them, or whose decoded
width or height is zero, makes the whole conversion fail with
`DecodeError` with an empty stage trace (the pipeline aborts before any
stage runs), and analysis-only mode fails the same way; conversely a
supported header with nonzero dimensions decodes successfully. -/
theorem decode_error_aborts_pipeline (cfg : Config)
    (fc : EdgeImage → List Contour) (ds : EdgeImage → List Segment)
    (ocr : DecodedImage → List OcrFragment) (buf : List Nat) :
    ((sniffFormat buf = none ∨
        (∃ fmt, sniffFormat buf = some fmt ∧
          ((decodeDims fmt buf).1 = 0 ∨ (decodeDims fmt buf).2 = 0))) →
      runPipelineTrace cfg fc ds ocr buf = (.error .decodeError, []) ∧
      runAnalysis cfg fc ds ocr buf = .error .decodeError) ∧
    (∀ fmt, sniffFormat buf = some fmt →
      (decodeDims fmt buf).1 ≠ 0 → (decodeDims fmt buf).2 ≠ 0 →
      decodeImage buf
        = .ok ⟨fmt, (decodeDims fmt buf).1, (decodeDims fmt buf).2, buf⟩) := by
  constructor
  · intro h
    have hd : decodeImage buf = .error .decodeError := by
      cases h with
      | inl hnone => simp [decodeImage, hnone]
      | inr hzero =>
        obtain ⟨fmt, hs, hz⟩ := hzero
        simp [decodeImage, hs, hz]
    exact ⟨by simp [runPipelineTrace, hd], by simp [runAnalysis, hd]⟩
  · intro fmt hs h1 h2
    simp [decodeImage, hs, h1, h2]

/-- Witness for C4 on a concrete unsupported buffer. -/
theorem decode_error_aborts_pipeline_witness :
    runPipelineTrace {} (fun _ => []) (fun _ => []) (fun _ => []) [0, 1]
        = (.error .decodeError, []) ∧
      runAnalysis {} (fun _ => []) (fun _ => []) (fun _ => []) [0, 1]
        = .error .decodeError :=
  (decode_error_aborts_pipeline {} (fun _ => []) (fun _ => []) (fun _ => []) [0, 1]).1
    (Or.inl rfl)

/-- C6: when the image decodes but the shape and connector detectors
find nothing, the conversion still succeeds: it reports zero shapes and
zero connectors and yields a structurally valid package containing
every required part. -/
theorem zero_detections_still_succeed (cfg : Config)
    (fc : EdgeImage → List Contour) (ds : EdgeImage → List Segment)
    (ocr : DecodedImage → List OcrFragment) (buf : List Nat) (img : DecodedImage)
    (hd : decodeImage buf = .ok img)
    (hcontours : fc (preprocessImage img) = [])
    (hsegs : ds (preprocessImage img) = []) :
    ∃ r : ConversionResult,
      (runPipelineTrace cfg fc ds ocr buf).1 = .ok r ∧
      r.shapesDetected = 0 ∧ r.connectorsDetected = 0 ∧
      (∀ name ∈ requiredPartNames, name ∈ r.package.map Prod.fst) := by
  have hgraph : analysisGraph cfg fc ds ocr img
      = buildGraph cfg [] [] (filterFragments cfg.ocrMinConfidence (ocr img)) := by
    show buildGraph cfg
        ((filterNoise cfg.minShapeArea (fc (preprocessImage img))).map toRawShape)
        (ds (preprocessImage img))
        (filterFragments cfg.ocrMinConfidence (ocr img)) = _
    rw [hcontours, hsegs]
    rfl
  have hvalid :
      graphValid (buildGraph cfg [] [] (filterFragments cfg.ocrMinConfidence (ocr img)))
        = true :=
    graphValid_buildGraph _ _ _ _
  have hpack :
      generatePackage (buildGraph cfg [] [] (filterFragments cfg.ocrMinConfidence (ocr img)))
        = .ok [("[Content_Types].xml", "<Types/>"), ("_rels/.rels", "<Relationships/>"),
               ("visio/document.xml", "<VisioDocument/>"),
               ("visio/pages/page1.xml",
                 pageXml (buildGraph cfg [] []
                   (filterFragments cfg.ocrMinConfidence (ocr img)))),
               ("visio/masters/masters.xml", "<Masters/>"),
               ("visio/pages/_rels/page1.xml.rels", "<Relationships/>")] := by
    unfold generatePackage
    rw [if_pos hvalid]
  refine ⟨{ shapesDetected := 0, connectorsDetected := 0
            textElements :=
              (buildGraph cfg [] [] (filterFragments cfg.ocrMinConfidence (ocr img))).texts.length
            package :=
              [("[Content_Types].xml", "<Types/>"), ("_rels/.rels", "<Relationships/>"),
               ("visio/document.xml", "<VisioDocument/>"),
               ("visio/pages/page1.xml",
                 pageXml (buildGraph cfg [] []
                   (filterFragments cfg.ocrMinConfidence (ocr img)))),
               ("visio/masters/masters.xml", "<Masters/>"),
               ("visio/pages/_rels/page1.xml.rels", "<Relationships/>")] },
    ?_, rfl, rfl, ?_⟩
  · simp only [runPipelineTrace, hd, hgraph, hpack]
    rfl
  · have hnames : ∀ x ∈ requiredPartNames,
        x ∈ (["[Content_Types].xml", "_rels/.rels", "visio/document.xml",
          "visio/pages/page1.xml", "visio/masters/masters.xml",
          "visio/pages/_rels/page1.xml.rels"] : List String) := by decide
    intro name hname
    exact hnames name hname

/-- Witness for C6 on a concrete BMP-like buffer with detectors that
find nothing. -/
theorem zero_detections_still_succeed_witness :
    ∃ r : ConversionResult,
      (runPipelineTrace {} (fun _ => []) (fun _ => []) (fun _ => []) [66, 77, 4, 3]).1
          = .ok r ∧
      r.shapesDetected = 0 ∧ r.connectorsDetected = 0 ∧
      (∀ name ∈ requiredPartNames, name ∈ r.package.map Prod.fst) :=
  zero_detections_still_succeed {} (fun _ => []) (fun _ => []) (fun _ => [])
    [66, 77, 4, 3] ⟨ImageFormat.bmp, 4, 3, [66, 77, 4, 3]⟩ rfl rfl rfl

/-- C7: connectors are never silently dropped — the builder emits
exactly one connector per merged segment candidate, each end carrying
the endpoint resolution result; and an endpoint within snap tolerance
of no shape resolves to a null shape id, so the dangling connector is
still emitted and counted. -/
theorem dangling_connectors_still_emitted (tol n : Nat)
    (shapes : List Shape) (segs : List Segment) :
    (buildConnectorList tol shapes n segs).length = segs.length ∧
    (∀ seg ∈ segs, ∃ c ∈ buildConnectorList tol shapes n segs,
      c.startPoint = seg.p1 ∧ c.endPoint = seg.p2 ∧
      c.fromShapeId = resolveEndpoint tol shapes seg.p1 ∧
      c.toShapeId = resolveEndpoint tol shapes seg.p2) ∧
    (∀ p : Point, (∀ s ∈ shapes, nearShape tol p s = false) →
      resolveEndpoint tol shapes p = none) := by
  refine ⟨buildConnectorList_length tol shapes segs n, ?_, ?_⟩
  · intro seg hseg
    exact buildConnectorList_covers tol shapes segs n seg hseg
  · intro p hfar
    exact resolveEndpoint_none_of_far tol shapes p hfar

/-- Witness for C7: with no shapes at all, the single segment is still
emitted as a connector whose ends resolve to null. -/
theorem dangling_connectors_still_emitted_witness :
    ∃ c ∈ buildConnectorList 5 [] 1 [⟨⟨0, 0⟩, ⟨9, 0⟩⟩],
      c.startPoint = (⟨0, 0⟩ : Point) ∧ c.endPoint = (⟨9, 0⟩ : Point) ∧
      c.fromShapeId = resolveEndpoint 5 [] ⟨0, 0⟩ ∧
      c.toShapeId = resolveEndpoint 5 [] ⟨9, 0⟩ :=
  (dangling_connectors_still_emitted 5 1 [] [⟨⟨0, 0⟩, ⟨9, 0⟩⟩]).2.1
    ⟨⟨0, 0⟩, ⟨9, 0⟩⟩ (by decide)
